import Mathlib

/-!
Verification development for the unichow repository.

The repository is a thin client over a managed document database and a
managed object store.  We embed the verification service
(verificationService in the source) and the restaurant settings page as
pure Lean functions.  External store calls are modelled by an
environment that fixes, for each call site, whether the call succeeds
or raises an error; state changes performed by calls that completed
before a failure persist, so every operation returns the final store
state together with an Except result.
-/

namespace Unichow

/-- Errors thrown by the external stores.  The repository treats them as
opaque values that are logged and rethrown, so a string stands for one. -/
abbrev Err := String

/-- Document types of the verification workflow.
Modelled from the spec: the TypeScript union VerificationDocument.type
lives in a types file that is not part of the sources; the spec lists
business_license, food_permit and identity as the document types. -/
inductive DocType where
  | business_license
  | food_permit
  | identity
deriving DecidableEq, Repr

/-- Review status of an uploaded document. -/
inductive DocStatus where
  | pending
  | approved
  | rejected
deriving DecidableEq, Repr

/-- A VerificationDocument record, as written by uploadDocument. -/
structure VerificationDocument where
  id : String
  type : DocType
  status : DocStatus
  fileUrl : String
  fileName : String
  uploadedAt : String
  expiryDate : Option String
deriving DecidableEq, Repr

/-- The VerificationStatus singleton record. -/
structure VerificationStatus where
  isVerified : Bool
  documentsSubmitted : Bool
  pendingDocuments : List DocType
  rejectedDocuments : List DocType
  lastUpdated : String
deriving DecidableEq, Repr

/-- The three required document types, in the order the source lists them
both in getVerificationStatus and in updateVerificationStatus. -/
def requiredTypes : List DocType :=
  [.business_license, .food_permit, .identity]

/-- The scan loop of updateVerificationStatus: documents.forEach over the
pending Set and the rejected array.  Set.delete is removal of the equal
element; Array.from preserves insertion order, so the pending Set is a
duplicate-free list filtered in place. -/
def scanDocs : List VerificationDocument → List DocType → List DocType →
    List DocType × List DocType
  | [], pending, rejected => (pending, rejected)
  | d :: rest, pending, rejected =>
    match d.status with
    | .approved => scanDocs rest (pending.filter (fun t => !(d.type == t))) rejected
    | .rejected => scanDocs rest pending (rejected ++ [d.type])
    | .pending => scanDocs rest pending rejected

/-- The status value built by updateVerificationStatus from the scanned
document list (lines 86-103 of the service source). -/
def computeStatus (documents : List VerificationDocument) (now : String) :
    VerificationStatus :=
  let scanned := scanDocs documents requiredTypes []
  { isVerified := scanned.1.length == 0 && scanned.2.length == 0
    documentsSubmitted := decide (documents.length > 0)
    pendingDocuments := scanned.1
    rejectedDocuments := scanned.2
    lastUpdated := now }

/-- The default status written by getVerificationStatus when no status
record exists (lines 51-57 of the service source). -/
def defaultStatus (now : String) : VerificationStatus :=
  { isVerified := false
    documentsSubmitted := false
    pendingDocuments := [.business_license, .food_permit, .identity]
    rejectedDocuments := []
    lastUpdated := now }

/-- A raw record of the verification collection of one restaurant: either
the status singleton, stored at the fixed path suffix status, or a
document record.  getDocs returns both kinds. -/
inductive VRecord where
  | statusRec : VerificationStatus → VRecord
  | docRec : VerificationDocument → VRecord
deriving DecidableEq

/-- The filter of getDocuments, doc => doc.type: a status record carries
no type field, so it is dropped; every document record has a type field
holding a nonempty literal, so it is kept. -/
def keepTyped : VRecord → Option VerificationDocument
  | .statusRec _ => none
  | .docRec d => some d

/-- Store state for one restaurant: the status singleton of its
verification collection, the document records of that collection, and
the object-store blobs.  A blob is identified by its download URL: the
object store resolves a download URL back to the stored object, so the
URL is a faithful key for it. -/
structure RestaurantState where
  statusRec : Option VerificationStatus
  docs : List VerificationDocument
  blobs : List String
deriving DecidableEq

/-- The getDocs snapshot of the verification collection. -/
def collectionSnapshot (st : RestaurantState) : List VRecord :=
  (st.docs.map VRecord.docRec) ++
    (match st.statusRec with
     | some s => [VRecord.statusRec s]
     | none => [])

/-- Outcome of each external store call site, fixed by the execution
being considered: ok means the call succeeds, error e means it throws e. -/
structure StoreEnv where
  uploadBytesRes : Except Err Unit
  getDownloadURLRes : Except Err Unit
  setRecordRes : Except Err Unit
  getStatusRes : Except Err Unit
  setStatusRes : Except Err Unit
  getDocsRes : Except Err Unit
  deleteObjectRes : Except Err Unit
  deleteDocRes : Except Err Unit

/-- The catch-log-rethrow wrapper every service method ends with: the
error is logged to the console and the original error value is rethrown. -/
def catchRethrow {α : Type} (r : RestaurantState × Except Err α) :
    RestaurantState × Except Err α :=
  match r with
  | (st, .error e) => (st, .error e)
  | (st, .ok a) => (st, .ok a)

/-- Body of getDocuments: getDocs over the collection, map to records,
filter on the presence of a type field. -/
def getDocumentsBody (env : StoreEnv) (st : RestaurantState) :
    RestaurantState × Except Err (List VerificationDocument) :=
  match env.getDocsRes with
  | .error e => (st, .error e)
  | .ok _ => (st, .ok ((collectionSnapshot st).filterMap keepTyped))

/-- getDocuments with its catch-log-rethrow wrapper. -/
def getDocumentsM (env : StoreEnv) (st : RestaurantState) :
    RestaurantState × Except Err (List VerificationDocument) :=
  catchRethrow (getDocumentsBody env st)

/-- Body of getVerificationStatus: read the status record; when it is
absent, write the default before returning it. -/
def getVerificationStatusBody (env : StoreEnv) (st : RestaurantState)
    (now : String) : RestaurantState × Except Err VerificationStatus :=
  match env.getStatusRes with
  | .error e => (st, .error e)
  | .ok _ =>
    match st.statusRec with
    | none =>
      match env.setStatusRes with
      | .error e => (st, .error e)
      | .ok _ =>
        ({ st with statusRec := some (defaultStatus now) }, .ok (defaultStatus now))
    | some s => (st, .ok s)

/-- getVerificationStatus with its catch-log-rethrow wrapper. -/
def getVerificationStatusM (env : StoreEnv) (st : RestaurantState)
    (now : String) : RestaurantState × Except Err VerificationStatus :=
  catchRethrow (getVerificationStatusBody env st now)

/-- Body of updateVerificationStatus: getDocuments, scan, write the
recomputed status record unconditionally. -/
def updateVerificationStatusBody (env : StoreEnv) (st : RestaurantState)
    (now : String) : RestaurantState × Except Err VerificationStatus :=
  match getDocumentsM env st with
  | (st1, .error e) => (st1, .error e)
  | (st1, .ok documents) =>
    match env.setStatusRes with
    | .error e => (st1, .error e)
    | .ok _ =>
      ({ st1 with statusRec := some (computeStatus documents now) },
       .ok (computeStatus documents now))

/-- updateVerificationStatus with its catch-log-rethrow wrapper. -/
def updateVerificationStatusM (env : StoreEnv) (st : RestaurantState)
    (now : String) : RestaurantState × Except Err VerificationStatus :=
  catchRethrow (updateVerificationStatusBody env st now)

/-- Body of uploadDocument: upload the blob under a timestamped key,
obtain its download URL, write the pending document record, then refresh
the status.  blobKey is the storage path built from the type and the
upload instant; the download URL the object store hands back is the
(bijective) URL of that path, so it stands for the key itself.  newId is
the generated document id and now the ISO timestamp. -/
def uploadDocumentBody (env : StoreEnv) (st : RestaurantState)
    (fileName : String) (ty : DocType) (expiryDate : Option String)
    (blobKey newId now : String) :
    RestaurantState × Except Err VerificationDocument :=
  match env.uploadBytesRes with
  | .error e => (st, .error e)
  | .ok _ =>
    let st1 := { st with blobs := st.blobs ++ [blobKey] }
    match env.getDownloadURLRes with
    | .error e => (st1, .error e)
    | .ok _ =>
      let vdoc : VerificationDocument :=
        { id := newId, type := ty, status := .pending, fileUrl := blobKey
          fileName := fileName, uploadedAt := now, expiryDate := expiryDate }
      match env.setRecordRes with
      | .error e => (st1, .error e)
      | .ok _ =>
        let st2 := { st1 with docs := st1.docs ++ [vdoc] }
        match updateVerificationStatusM env st2 now with
        | (st3, .error e) => (st3, .error e)
        | (st3, .ok _) => (st3, .ok vdoc)

/-- uploadDocument with its catch-log-rethrow wrapper. -/
def uploadDocumentM (env : StoreEnv) (st : RestaurantState)
    (fileName : String) (ty : DocType) (expiryDate : Option String)
    (blobKey newId now : String) :
    RestaurantState × Except Err VerificationDocument :=
  catchRethrow (uploadDocumentBody env st fileName ty expiryDate blobKey newId now)

/-- Body of deleteDocument: delete the blob, delete the record, refresh
the status, in that order, with no compensation between steps. -/
def deleteDocumentBody (env : StoreEnv) (st : RestaurantState)
    (d : VerificationDocument) (now : String) :
    RestaurantState × Except Err Unit :=
  match env.deleteObjectRes with
  | .error e => (st, .error e)
  | .ok _ =>
    let st1 := { st with blobs := st.blobs.filter (fun b => !(b == d.fileUrl)) }
    match env.deleteDocRes with
    | .error e => (st1, .error e)
    | .ok _ =>
      let st2 := { st1 with docs := st1.docs.filter (fun x => !(x.id == d.id)) }
      match updateVerificationStatusM env st2 now with
      | (st3, .error e) => (st3, .error e)
      | (st3, .ok _) => (st3, .ok ())

/-- deleteDocument with its catch-log-rethrow wrapper. -/
def deleteDocumentM (env : StoreEnv) (st : RestaurantState)
    (d : VerificationDocument) (now : String) :
    RestaurantState × Except Err Unit :=
  catchRethrow (deleteDocumentBody env st d now)

/-- The pending component of the scan: the initial pending list filtered
by the types for which some approved document occurs. -/
theorem scanDocs_fst (ds : List VerificationDocument) (p r : List DocType) :
    (scanDocs ds p r).1 =
      p.filter (fun t =>
        !(ds.any (fun d => d.status == DocStatus.approved && d.type == t))) := by
  induction ds generalizing p r with
  | nil => simp [scanDocs]
  | cons d rest ih =>
    cases hd : d.status with
    | approved =>
      simp [scanDocs, hd, ih, List.filter_filter, Bool.and_comm]
    | rejected =>
      simp [scanDocs, hd, ih,
        show (DocStatus.rejected == DocStatus.approved) = false from rfl]
    | pending =>
      simp [scanDocs, hd, ih,
        show (DocStatus.pending == DocStatus.approved) = false from rfl]

/-- The rejected component of the scan: the accumulator followed by one
entry per rejected document, in scan order. -/
theorem scanDocs_snd (ds : List VerificationDocument) (p r : List DocType) :
    (scanDocs ds p r).2 =
      r ++ (ds.filter (fun d => d.status == DocStatus.rejected)).map
        (fun d => d.type) := by
  induction ds generalizing p r with
  | nil => simp [scanDocs]
  | cons d rest ih =>
    cases hd : d.status with
    | approved => simp [scanDocs, hd, ih]
    | rejected => simp [scanDocs, hd, ih]
    | pending => simp [scanDocs, hd, ih]

/-- pendingDocuments as computed by updateVerificationStatus. -/
theorem computeStatus_pendingDocuments (documents : List VerificationDocument)
    (now : String) :
    (computeStatus documents now).pendingDocuments =
      requiredTypes.filter (fun t =>
        !(documents.any (fun d => d.status == DocStatus.approved && d.type == t))) := by
  simp [computeStatus, scanDocs_fst]

/-- rejectedDocuments as computed by updateVerificationStatus. -/
theorem computeStatus_rejectedDocuments (documents : List VerificationDocument)
    (now : String) :
    (computeStatus documents now).rejectedDocuments =
      (documents.filter (fun d => d.status == DocStatus.rejected)).map
        (fun d => d.type) := by
  simp [computeStatus, scanDocs_snd]

/-- isVerified as computed by updateVerificationStatus. -/
theorem computeStatus_isVerified (documents : List VerificationDocument)
    (now : String) :
    (computeStatus documents now).isVerified = true ↔
      ((computeStatus documents now).pendingDocuments = [] ∧
       (computeStatus documents now).rejectedDocuments = []) := by
  simp [computeStatus, List.length_eq_zero]

/-- C1: the record written by updateVerificationStatus has isVerified
true iff every required type has at least one approved document and no
document at all has status rejected. -/
theorem isVerified_iff_approved_and_no_rejected
    (documents : List VerificationDocument) (now : String) :
    (computeStatus documents now).isVerified = true ↔
      ((∀ t ∈ requiredTypes,
          ∃ d ∈ documents, d.type = t ∧ d.status = DocStatus.approved) ∧
       (∀ d ∈ documents, d.status ≠ DocStatus.rejected)) := by
  rw [computeStatus_isVerified, computeStatus_pendingDocuments,
    computeStatus_rejectedDocuments]
  simp [List.filter_eq_nil_iff, List.map_eq_nil_iff]
  intro _
  constructor
  · intro h1 t ht
    obtain ⟨d, hdmem, hds, hdt⟩ := h1 t ht
    exact ⟨d, hdmem, hdt, hds⟩
  · intro h1 t ht
    obtain ⟨d, hdmem, hdt, hds⟩ := h1 t ht
    exact ⟨d, hdmem, hds, hdt⟩

/-- The spec invariant on a status record: isVerified exactly when both
pendingDocuments and rejectedDocuments are empty. -/
def statusInvariant (s : VerificationStatus) : Prop :=
  s.isVerified = true ↔ (s.pendingDocuments = [] ∧ s.rejectedDocuments = [])

/-- Every recomputed status satisfies the invariant. -/
theorem computeStatus_statusInvariant (documents : List VerificationDocument)
    (now : String) : statusInvariant (computeStatus documents now) :=
  computeStatus_isVerified documents now

/-- The default status satisfies the invariant. -/
theorem defaultStatus_statusInvariant (now : String) :
    statusInvariant (defaultStatus now) := by
  simp [statusInvariant, defaultStatus]

/-- After an operation, the status singleton is either untouched or holds
a record satisfying the invariant. -/
def statusWritePreserved (st stp : RestaurantState) : Prop :=
  stp.statusRec = st.statusRec ∨
    ∃ s, stp.statusRec = some s ∧ statusInvariant s

theorem statusWritePreserved_of_eq {st st2 stp : RestaurantState}
    (h : st2.statusRec = st.statusRec)
    (hp : statusWritePreserved st2 stp) : statusWritePreserved st stp := by
  rcases hp with h2 | ⟨s, hs, hi⟩
  · exact Or.inl (h2.trans h)
  · exact Or.inr ⟨s, hs, hi⟩

/-- The collection snapshot filtered on the type field is exactly the
document records. -/
theorem collectionSnapshot_filterMap (st : RestaurantState) :
    (collectionSnapshot st).filterMap keepTyped = st.docs := by
  have hcomp : (keepTyped ∘ VRecord.docRec) = some := by
    funext d
    rfl
  cases h : st.statusRec <;>
    simp [collectionSnapshot, keepTyped, h, List.filterMap_append, hcomp,
      List.filterMap_some]

/-- getDocuments on a successful read returns the document records and
leaves the state untouched. -/
theorem getDocumentsM_ok (env : StoreEnv) (st : RestaurantState)
    (h : env.getDocsRes = .ok ()) :
    getDocumentsM env st = (st, .ok st.docs) := by
  simp [getDocumentsM, getDocumentsBody, catchRethrow, h,
    collectionSnapshot_filterMap]

/-- updateVerificationStatus on successful reads and writes stores the
recomputed status, unconditionally, and returns it. -/
theorem updateVerificationStatusM_ok (env : StoreEnv) (st : RestaurantState)
    (now : String) (hg : env.getDocsRes = .ok ())
    (hs : env.setStatusRes = .ok ()) :
    updateVerificationStatusM env st now =
      ({ st with statusRec := some (computeStatus st.docs now) },
       .ok (computeStatus st.docs now)) := by
  simp [updateVerificationStatusM, updateVerificationStatusBody,
    getDocumentsM_ok env st hg, catchRethrow, hs]

theorem updateVerificationStatusM_statusWritePreserved (env : StoreEnv)
    (st : RestaurantState) (now : String) :
    statusWritePreserved st (updateVerificationStatusM env st now).1 := by
  cases hgd : env.getDocsRes with
  | error e =>
    exact Or.inl (by
      simp [updateVerificationStatusM, updateVerificationStatusBody,
        getDocumentsM, getDocumentsBody, catchRethrow, hgd])
  | ok u =>
    cases hss : env.setStatusRes with
    | error e =>
      exact Or.inl (by
        simp [updateVerificationStatusM, updateVerificationStatusBody,
          getDocumentsM, getDocumentsBody, catchRethrow, hgd, hss])
    | ok v =>
      refine Or.inr ⟨computeStatus st.docs now, ?_, computeStatus_statusInvariant _ _⟩
      have : updateVerificationStatusM env st now =
          ({ st with statusRec := some (computeStatus st.docs now) },
           .ok (computeStatus st.docs now)) :=
        updateVerificationStatusM_ok env st now hgd hss
      simp [this]

theorem getVerificationStatusM_statusWritePreserved (env : StoreEnv)
    (st : RestaurantState) (now : String) :
    statusWritePreserved st (getVerificationStatusM env st now).1 := by
  cases hgs : env.getStatusRes with
  | error e =>
    exact Or.inl (by
      simp [getVerificationStatusM, getVerificationStatusBody, catchRethrow, hgs])
  | ok u =>
    cases hrec : st.statusRec with
    | none =>
      cases hss : env.setStatusRes with
      | error e =>
        exact Or.inl (by
          simp [getVerificationStatusM, getVerificationStatusBody, catchRethrow,
            hgs, hrec, hss])
      | ok v =>
        refine Or.inr ⟨defaultStatus now, ?_, defaultStatus_statusInvariant now⟩
        simp [getVerificationStatusM, getVerificationStatusBody, catchRethrow,
          hgs, hrec, hss]
    | some s =>
      exact Or.inl (by
        simp [getVerificationStatusM, getVerificationStatusBody, catchRethrow,
          hgs, hrec])

theorem uploadDocumentM_statusWritePreserved (env : StoreEnv)
    (st : RestaurantState) (fileName : String) (ty : DocType)
    (expiryDate : Option String) (blobKey newId now : String) :
    statusWritePreserved st
      (uploadDocumentM env st fileName ty expiryDate blobKey newId now).1 := by
  cases hub : env.uploadBytesRes with
  | error e =>
    exact Or.inl (by
      simp [uploadDocumentM, uploadDocumentBody, catchRethrow, hub])
  | ok u =>
    cases hdl : env.getDownloadURLRes with
    | error e =>
      exact Or.inl (by
        simp [uploadDocumentM, uploadDocumentBody, catchRethrow, hub, hdl])
    | ok v =>
      cases hsr : env.setRecordRes with
      | error e =>
        exact Or.inl (by
          simp [uploadDocumentM, uploadDocumentBody, catchRethrow, hub, hdl, hsr])
      | ok w =>
        set vdoc : VerificationDocument :=
          { id := newId, type := ty, status := .pending, fileUrl := blobKey
            fileName := fileName, uploadedAt := now, expiryDate := expiryDate }
        set st2 : RestaurantState :=
          { statusRec := st.statusRec, docs := st.docs ++ [vdoc]
            blobs := st.blobs ++ [blobKey] }
        have hup := updateVerificationStatusM_statusWritePreserved env st2 now
        have heq : st2.statusRec = st.statusRec := rfl
        refine statusWritePreserved_of_eq heq ?_
        rcases hu : updateVerificationStatusM env st2 now with ⟨st3, r⟩
        have hfst :
            (uploadDocumentM env st fileName ty expiryDate blobKey newId now).1 =
              st3 := by
          cases r <;>
            simp [uploadDocumentM, uploadDocumentBody, catchRethrow, hub, hdl,
              hsr, hu, vdoc, st2]
        rw [hfst]
        have : (updateVerificationStatusM env st2 now).1 = st3 := by rw [hu]
        rwa [this] at hup

theorem deleteDocumentM_statusWritePreserved (env : StoreEnv)
    (st : RestaurantState) (d : VerificationDocument) (now : String) :
    statusWritePreserved st (deleteDocumentM env st d now).1 := by
  cases hdo : env.deleteObjectRes with
  | error e =>
    exact Or.inl (by
      simp [deleteDocumentM, deleteDocumentBody, catchRethrow, hdo])
  | ok u =>
    cases hdd : env.deleteDocRes with
    | error e =>
      exact Or.inl (by
        simp [deleteDocumentM, deleteDocumentBody, catchRethrow, hdo, hdd])
    | ok v =>
      set st2 : RestaurantState :=
        { statusRec := st.statusRec
          docs := st.docs.filter (fun x => !(x.id == d.id))
          blobs := st.blobs.filter (fun b => !(b == d.fileUrl)) }
      have hup := updateVerificationStatusM_statusWritePreserved env st2 now
      have heq : st2.statusRec = st.statusRec := rfl
      refine statusWritePreserved_of_eq heq ?_
      rcases hu : updateVerificationStatusM env st2 now with ⟨st3, r⟩
      have hfst : (deleteDocumentM env st d now).1 = st3 := by
        cases r <;>
          simp [deleteDocumentM, deleteDocumentBody, catchRethrow, hdo, hdd,
            hu, st2]
      rw [hfst]
      have : (updateVerificationStatusM env st2 now).1 = st3 := by rw [hu]
      rwa [this] at hup

/-- C2: every status record any service operation writes satisfies the
invariant isVerified iff pendingDocuments and rejectedDocuments are both
empty: the default record and every recomputed record satisfy it, and
each operation leaves the status singleton either untouched or holding a
record satisfying it. -/
theorem statusInvariant_all_writes :
    (∀ now, statusInvariant (defaultStatus now)) ∧
    (∀ documents now, statusInvariant (computeStatus documents now)) ∧
    (∀ env st now, statusWritePreserved st (getVerificationStatusM env st now).1) ∧
    (∀ env st now, statusWritePreserved st (updateVerificationStatusM env st now).1) ∧
    (∀ env st fileName ty expiryDate blobKey newId now,
      statusWritePreserved st
        (uploadDocumentM env st fileName ty expiryDate blobKey newId now).1) ∧
    (∀ env st d now, statusWritePreserved st (deleteDocumentM env st d now).1) :=
  ⟨defaultStatus_statusInvariant, computeStatus_statusInvariant,
   getVerificationStatusM_statusWritePreserved,
   updateVerificationStatusM_statusWritePreserved,
   uploadDocumentM_statusWritePreserved,
   deleteDocumentM_statusWritePreserved⟩

/-- The record uploadDocument builds before storing it. -/
def mkUploadedDoc (fileName : String) (ty : DocType) (expiryDate : Option String)
    (blobKey newId now : String) : VerificationDocument :=
  { id := newId, type := ty, status := .pending, fileUrl := blobKey
    fileName := fileName, uploadedAt := now, expiryDate := expiryDate }

/-- uploadDocument on an all-successful execution: the blob is stored, the
pending record is appended, the status is recomputed from the enlarged
document set, and the created record is returned. -/
theorem uploadDocumentM_ok (env : StoreEnv) (st : RestaurantState)
    (fileName : String) (ty : DocType) (expiryDate : Option String)
    (blobKey newId now : String)
    (h1 : env.uploadBytesRes = .ok ()) (h2 : env.getDownloadURLRes = .ok ())
    (h3 : env.setRecordRes = .ok ()) (h4 : env.getDocsRes = .ok ())
    (h5 : env.setStatusRes = .ok ()) :
    uploadDocumentM env st fileName ty expiryDate blobKey newId now =
      ({ statusRec := some (computeStatus
            (st.docs ++ [mkUploadedDoc fileName ty expiryDate blobKey newId now]) now)
         docs := st.docs ++ [mkUploadedDoc fileName ty expiryDate blobKey newId now]
         blobs := st.blobs ++ [blobKey] },
       .ok (mkUploadedDoc fileName ty expiryDate blobKey newId now)) := by
  have hupd := updateVerificationStatusM_ok env
    { statusRec := st.statusRec
      docs := st.docs ++ [mkUploadedDoc fileName ty expiryDate blobKey newId now]
      blobs := st.blobs ++ [blobKey] } now h4 h5
  simp [uploadDocumentM, uploadDocumentBody, catchRethrow, h1, h2, h3,
    mkUploadedDoc] at hupd ⊢
  simp [hupd]

/-- deleteDocument on an all-successful execution: the blob and the
record are removed and the status is recomputed from the remaining
document set. -/
theorem deleteDocumentM_ok (env : StoreEnv) (st : RestaurantState)
    (d : VerificationDocument) (now : String)
    (h1 : env.deleteObjectRes = .ok ()) (h2 : env.deleteDocRes = .ok ())
    (h3 : env.getDocsRes = .ok ()) (h4 : env.setStatusRes = .ok ()) :
    deleteDocumentM env st d now =
      ({ statusRec := some (computeStatus
            (st.docs.filter (fun x => !(x.id == d.id))) now)
         docs := st.docs.filter (fun x => !(x.id == d.id))
         blobs := st.blobs.filter (fun b => !(b == d.fileUrl)) },
       .ok ()) := by
  have hupd := updateVerificationStatusM_ok env
    { statusRec := st.statusRec
      docs := st.docs.filter (fun x => !(x.id == d.id))
      blobs := st.blobs.filter (fun b => !(b == d.fileUrl)) } now h3 h4
  simp [deleteDocumentM, deleteDocumentBody, catchRethrow, h1, h2] at hupd ⊢
  simp [hupd]

/-- C3: pendingDocuments is the required-type set minus every type with
an approved document, kept in the fixed order; rejectedDocuments has one
entry per rejected document in scan order with no de-duplication; and on
successful store calls the recomputed record is written unconditionally,
whatever the previous status record was. -/
theorem update_pending_rejected_unconditional :
    (∀ (documents : List VerificationDocument) (now : String) (t : DocType),
      t ∈ (computeStatus documents now).pendingDocuments ↔
        (t ∈ requiredTypes ∧
          ¬∃ d ∈ documents, d.type = t ∧ d.status = DocStatus.approved)) ∧
    (∀ (documents : List VerificationDocument) (now : String),
      (computeStatus documents now).rejectedDocuments =
        (documents.filter (fun d => d.status == DocStatus.rejected)).map
          (fun d => d.type)) ∧
    (∀ (env : StoreEnv) (st : RestaurantState) (now : String),
      env.getDocsRes = .ok () → env.setStatusRes = .ok () →
      updateVerificationStatusM env st now =
        ({ st with statusRec := some (computeStatus st.docs now) },
         .ok (computeStatus st.docs now))) := by
  refine ⟨?_, computeStatus_rejectedDocuments, updateVerificationStatusM_ok⟩
  intro documents now t
  rw [computeStatus_pendingDocuments, List.mem_filter]
  simp only [Bool.not_eq_true', List.any_eq_false, Bool.and_eq_true, beq_iff_eq]
  constructor
  · rintro ⟨ht, hall⟩
    refine ⟨ht, ?_⟩
    rintro ⟨d, hd, hdt, hds⟩
    exact (hall d hd) ⟨hds, hdt⟩
  · rintro ⟨ht, hnone⟩
    refine ⟨ht, fun d hd => ?_⟩
    rintro ⟨hds, hdt⟩
    exact hnone ⟨d, hd, hdt, hds⟩

/-- C10: documentsSubmitted is true exactly when the document set read
back from the collection, which excludes the status singleton, is
non-empty, whatever the statuses of the documents are. -/
theorem documentsSubmitted_iff_docs_nonempty :
    (∀ (documents : List VerificationDocument) (now : String),
      (computeStatus documents now).documentsSubmitted = true ↔ documents ≠ []) ∧
    (∀ (env : StoreEnv) (st : RestaurantState) (now : String),
      env.getDocsRes = .ok () → env.setStatusRes = .ok () →
      ∃ s, updateVerificationStatusM env st now =
          ({ st with statusRec := some s }, .ok s) ∧
        (s.documentsSubmitted = true ↔ st.docs ≠ [])) := by
  have hpure : ∀ (documents : List VerificationDocument) (now : String),
      (computeStatus documents now).documentsSubmitted = true ↔ documents ≠ [] := by
    intro documents now
    simp [computeStatus, List.length_pos]
  refine ⟨hpure, fun env st now hg hs => ?_⟩
  exact ⟨computeStatus st.docs now, updateVerificationStatusM_ok env st now hg hs,
    hpure st.docs now⟩

/-- All-successful store environment, used to evaluate concrete runs. -/
def envOK : StoreEnv :=
  { uploadBytesRes := .ok (), getDownloadURLRes := .ok ()
    setRecordRes := .ok (), getStatusRes := .ok (), setStatusRes := .ok ()
    getDocsRes := .ok (), deleteObjectRes := .ok (), deleteDocRes := .ok () }

/-- A concrete document record used in concrete runs. -/
def sampleDoc (i : String) (ty : DocType) (stat : DocStatus) :
    VerificationDocument :=
  { id := i, type := ty, status := stat, fileUrl := String.append "url" i
    fileName := String.append "file" i, uploadedAt := "2024-01-01"
    expiryDate := none }

/-- A concrete restaurant state with an existing status record, one
approved and one rejected document. -/
def sampleState : RestaurantState :=
  { statusRec := some (defaultStatus "2024-01-01")
    docs := [sampleDoc "a" .business_license .approved,
             sampleDoc "b" .food_permit .rejected]
    blobs := ["urla", "urlb"] }

/-- Witness for C3: a concrete successful run writing the recomputed
record over the existing status record. -/
theorem update_pending_rejected_unconditional_witness :
    updateVerificationStatusM envOK sampleState "2024-02-02" =
      ({ sampleState with
          statusRec := some (computeStatus sampleState.docs "2024-02-02") },
       .ok (computeStatus sampleState.docs "2024-02-02")) :=
  update_pending_rejected_unconditional.2.2 envOK sampleState "2024-02-02" rfl rfl

/-- A concrete restaurant state whose documents are all rejected. -/
def sampleStateAllRejected : RestaurantState :=
  { statusRec := none
    docs := [sampleDoc "a" .identity .rejected]
    blobs := ["urla"] }

/-- Witness for C10: a concrete run over a set of only rejected
documents still yields documentsSubmitted true. -/
theorem documentsSubmitted_iff_docs_nonempty_witness :
    ∃ s, updateVerificationStatusM envOK sampleStateAllRejected "2024-02-02" =
        ({ sampleStateAllRejected with statusRec := some s }, .ok s) ∧
      (s.documentsSubmitted = true ↔ sampleStateAllRejected.docs ≠ []) :=
  documentsSubmitted_iff_docs_nonempty.2 envOK sampleStateAllRejected
    "2024-02-02" rfl rfl

/-- C4: when no status record exists, getVerificationStatus persists and
returns exactly the default record, not verified, nothing submitted, all
three types pending, nothing rejected; when a record exists it is
returned unchanged and the state is untouched. -/
theorem getVerificationStatus_lazy_init :
    (∀ (env : StoreEnv) (st : RestaurantState) (now : String),
      st.statusRec = none → env.getStatusRes = .ok () →
      env.setStatusRes = .ok () →
      getVerificationStatusM env st now =
        ({ st with statusRec := some (defaultStatus now) },
         .ok (defaultStatus now)) ∧
      defaultStatus now =
        { isVerified := false, documentsSubmitted := false
          pendingDocuments := [.business_license, .food_permit, .identity]
          rejectedDocuments := [], lastUpdated := now }) ∧
    (∀ (env : StoreEnv) (st : RestaurantState) (s : VerificationStatus)
        (now : String),
      st.statusRec = some s → env.getStatusRes = .ok () →
      getVerificationStatusM env st now = (st, .ok s)) := by
  constructor
  · intro env st now hrec hg hs
    refine ⟨?_, rfl⟩
    simp [getVerificationStatusM, getVerificationStatusBody, catchRethrow,
      hrec, hg, hs]
  · intro env st s now hrec hg
    simp [getVerificationStatusM, getVerificationStatusBody, catchRethrow,
      hrec, hg]

/-- A concrete restaurant state with no record of any kind. -/
def emptyState : RestaurantState :=
  { statusRec := none, docs := [], blobs := [] }

/-- Witness for C4: concrete runs of both branches. -/
theorem getVerificationStatus_lazy_init_witness :
    (getVerificationStatusM envOK emptyState "2024-02-02" =
      ({ emptyState with statusRec := some (defaultStatus "2024-02-02") },
       .ok (defaultStatus "2024-02-02"))) ∧
    (getVerificationStatusM envOK sampleState "2024-02-02" =
      (sampleState, .ok (defaultStatus "2024-01-01"))) :=
  ⟨(getVerificationStatus_lazy_init.1 envOK emptyState "2024-02-02"
      rfl rfl rfl).1,
   getVerificationStatus_lazy_init.2 envOK sampleState
     (defaultStatus "2024-01-01") "2024-02-02" rfl rfl⟩

/-- C5: deleting the only approved document of some required type from a
fully verified restaurant yields a status that is no longer verified and
lists that type as pending again. -/
theorem deleteDocument_unverifies (env : StoreEnv) (st : RestaurantState)
    (s : VerificationStatus) (d : VerificationDocument) (now : String)
    (h1 : env.deleteObjectRes = .ok ()) (h2 : env.deleteDocRes = .ok ())
    (h3 : env.getDocsRes = .ok ()) (h4 : env.setStatusRes = .ok ())
    (_hrec : st.statusRec = some s) (_hver : s.isVerified = true)
    (hmem : d ∈ st.docs) (happ : d.status = DocStatus.approved)
    (hreq : d.type ∈ requiredTypes)
    (huniq : ∀ d2 ∈ st.docs, d2.status = DocStatus.approved →
      d2.type = d.type → d2 = d) :
    ∃ st2 s2, deleteDocumentM env st d now = (st2, .ok ()) ∧
      st2.statusRec = some s2 ∧ s2.isVerified = false ∧
      d.type ∈ s2.pendingDocuments := by
  have hm : d.type ∈ (computeStatus
      (st.docs.filter (fun x => !(x.id == d.id))) now).pendingDocuments := by
    rw [computeStatus_pendingDocuments, List.mem_filter]
    refine ⟨hreq, ?_⟩
    simp only [Bool.not_eq_true', List.any_eq_false, Bool.and_eq_true,
      beq_iff_eq]
    intro d2 hd2
    rw [List.mem_filter] at hd2
    rintro ⟨hd2s, hd2t⟩
    have heq : d2 = d := huniq d2 hd2.1 hd2s hd2t
    subst heq
    simpa using hd2.2
  have hnv : (computeStatus
      (st.docs.filter (fun x => !(x.id == d.id))) now).isVerified = false := by
    cases hb : (computeStatus
        (st.docs.filter (fun x => !(x.id == d.id))) now).isVerified
    · rfl
    · exfalso
      have hnil := ((computeStatus_isVerified
        (st.docs.filter (fun x => !(x.id == d.id))) now).mp hb).1
      rw [hnil] at hm
      exact List.not_mem_nil _ hm
  exact ⟨_, computeStatus (st.docs.filter (fun x => !(x.id == d.id))) now,
    deleteDocumentM_ok env st d now h1 h2 h3 h4, rfl, hnv, hm⟩

/-- A concrete fully verified document set: one approved document per
required type. -/
def verifiedDocs : List VerificationDocument :=
  [sampleDoc "a" .business_license .approved,
   sampleDoc "b" .food_permit .approved,
   sampleDoc "c" .identity .approved]

/-- A concrete fully verified restaurant state. -/
def verifiedState : RestaurantState :=
  { statusRec := some (computeStatus verifiedDocs "2024-01-01")
    docs := verifiedDocs
    blobs := ["urla", "urlb", "urlc"] }

/-- Witness for C5: deleting the only approved identity document of the
concrete verified restaurant. -/
theorem deleteDocument_unverifies_witness :
    ∃ st2 s2, deleteDocumentM envOK verifiedState
        (sampleDoc "c" .identity .approved) "2024-02-02" = (st2, .ok ()) ∧
      st2.statusRec = some s2 ∧ s2.isVerified = false ∧
      (sampleDoc "c" .identity .approved).type ∈ s2.pendingDocuments :=
  deleteDocument_unverifies envOK verifiedState
    (computeStatus verifiedDocs "2024-01-01")
    (sampleDoc "c" .identity .approved) "2024-02-02"
    rfl rfl rfl rfl rfl (by decide) (by decide) rfl (by decide) (by decide)

/-- C6: getDocuments returns exactly the collection records carrying a
type field, so the status singleton is excluded, and after uploading a
single identity document the read returns exactly that one pending
record even though the collection also holds the status record. -/
theorem getDocuments_excludes_status_singleton :
    (∀ (env : StoreEnv) (st : RestaurantState),
      env.getDocsRes = .ok () →
      getDocumentsM env st =
        (st, .ok ((collectionSnapshot st).filterMap keepTyped)) ∧
      (collectionSnapshot st).filterMap keepTyped = st.docs) ∧
    (∀ (env : StoreEnv) (st : RestaurantState)
        (fileName : String) (expiryDate : Option String)
        (blobKey newId now : String),
      env.uploadBytesRes = .ok () → env.getDownloadURLRes = .ok () →
      env.setRecordRes = .ok () → env.getDocsRes = .ok () →
      env.setStatusRes = .ok () → st.docs = [] →
      ∃ vd st2,
        uploadDocumentM env st fileName .identity expiryDate blobKey newId now =
          (st2, .ok vd) ∧
        vd.type = .identity ∧ vd.status = .pending ∧
        (∃ s, st2.statusRec = some s) ∧
        getDocumentsM env st2 = (st2, .ok [vd])) := by
  constructor
  · intro env st hg
    refine ⟨?_, collectionSnapshot_filterMap st⟩
    simp [getDocumentsM, getDocumentsBody, catchRethrow, hg]
  · intro env st fileName expiryDate blobKey newId now h1 h2 h3 h4 h5 hdocs
    refine ⟨mkUploadedDoc fileName .identity expiryDate blobKey newId now,
      _, uploadDocumentM_ok env st fileName .identity expiryDate blobKey
        newId now h1 h2 h3 h4 h5, rfl, rfl, ⟨_, rfl⟩, ?_⟩
    rw [getDocumentsM_ok env _ h4]
    simp [hdocs]

/-- Witness for C6: concrete read over a state holding a status record,
and a concrete upload followed by a read. -/
theorem getDocuments_excludes_status_singleton_witness :
    (getDocumentsM envOK sampleState =
      (sampleState, .ok ((collectionSnapshot sampleState).filterMap keepTyped)) ∧
     (collectionSnapshot sampleState).filterMap keepTyped = sampleState.docs) ∧
    (∃ vd st2,
      uploadDocumentM envOK emptyState "license.pdf" .identity none
          "urlx" "x" "2024-02-02" = (st2, .ok vd) ∧
      vd.type = .identity ∧ vd.status = .pending ∧
      (∃ s, st2.statusRec = some s) ∧
      getDocumentsM envOK st2 = (st2, .ok [vd])) :=
  ⟨getDocuments_excludes_status_singleton.1 envOK sampleState rfl,
   getDocuments_excludes_status_singleton.2 envOK emptyState "license.pdf"
     none "urlx" "x" "2024-02-02" rfl rfl rfl rfl rfl rfl⟩

/-- The RestaurantSettings form fields of the settings page. -/
structure SettingsFields where
  restaurantName : String
  description : String
  cuisine : String
  openingHours : String
  closingHours : String
  address : String
  phone : String
deriving DecidableEq, Repr

/-- The stored user document the settings page reads and updates: the
settings fields, the lastUpdated stamp, and whatever further fields the
document carries, which updateDoc leaves in place.  Timestamps are
naturals standing for instants of a strictly increasing wall clock. -/
structure UserDoc where
  settings : SettingsFields
  lastUpdated : Option Nat
  extra : List (String × String)
deriving DecidableEq, Repr

/-- fetchSettings of the settings page: read the user document; when it
exists its data becomes the form state, otherwise the blank defaults
stay. -/
def fetchSettings (store : Option UserDoc) (blank : SettingsFields) :
    SettingsFields :=
  match store with
  | none => blank
  | some u => u.settings

/-- handleSubmit of the settings page: updateDoc with every form field
and a refreshed timestamp.  updateDoc merges the given fields into the
existing document and throws when the document does not exist. -/
def submitSettings (store : Option UserDoc) (form : SettingsFields)
    (now : Nat) : Except Err (Option UserDoc) :=
  match store with
  | none => .error "not-found"
  | some u => .ok (some { u with settings := form, lastUpdated := some now })

/-- The presence check the browser applies to the required form fields
before handleSubmit can run. -/
def requiredFieldsFilled (f : SettingsFields) : Prop :=
  f.restaurantName ≠ "" ∧ f.description ≠ "" ∧ f.cuisine ≠ "" ∧
  f.openingHours ≠ "" ∧ f.closingHours ≠ "" ∧ f.address ≠ "" ∧ f.phone ≠ ""

/-- C7: submitting the settings form with every required field populated
overwrites the settings fields with the form values and refreshes the
timestamp, so a subsequent read returns exactly the submitted values and
a lastUpdated strictly later than the one stored before submission. -/
theorem settings_submit_roundtrip (u : UserDoc) (form : SettingsFields)
    (blank : SettingsFields) (t0 now : Nat)
    (_hfilled : requiredFieldsFilled form)
    (_ht0 : u.lastUpdated = some t0) (hclock : t0 < now) :
    ∃ u2, submitSettings (some u) form now = .ok (some u2) ∧
      fetchSettings (some u2) blank = form ∧
      u2.settings = form ∧ u2.lastUpdated = some now ∧
      u2.extra = u.extra ∧ t0 < now := by
  exact ⟨{ u with settings := form, lastUpdated := some now },
    rfl, rfl, rfl, rfl, rfl, hclock⟩

/-- Witness for C7: a concrete populated form submitted over a concrete
stored document. -/
theorem settings_submit_roundtrip_witness :
    ∃ u2, submitSettings
        (some { settings := { restaurantName := "Old", description := "old"
                              cuisine := "old", openingHours := "08:00"
                              closingHours := "20:00", address := "old st"
                              phone := "000" }
                lastUpdated := some 5, extra := [("role", "restaurant")] })
        { restaurantName := "New", description := "new", cuisine := "new"
          openingHours := "09:00", closingHours := "21:00"
          address := "new st", phone := "111" } 9 = .ok (some u2) ∧
      fetchSettings (some u2)
        { restaurantName := "", description := "", cuisine := ""
          openingHours := "", closingHours := "", address := "", phone := "" } =
        { restaurantName := "New", description := "new", cuisine := "new"
          openingHours := "09:00", closingHours := "21:00"
          address := "new st", phone := "111" } ∧
      u2.settings =
        { restaurantName := "New", description := "new", cuisine := "new"
          openingHours := "09:00", closingHours := "21:00"
          address := "new st", phone := "111" } ∧
      u2.lastUpdated = some 9 ∧
      u2.extra = [("role", "restaurant")] ∧ (5 : Nat) < 9 :=
  settings_submit_roundtrip _ _ _ 5 9 (by simp [requiredFieldsFilled]) rfl (by decide)

/-- C8: when the blob deletion succeeds and the record deletion fails,
deleteDocument raises exactly the record-deletion error, the blob is
gone from the object store, and the document record is still stored,
dangling. -/
theorem deleteDocument_partial_failure (env : StoreEnv)
    (st : RestaurantState) (d : VerificationDocument) (now : String)
    (e : Err)
    (h1 : env.deleteObjectRes = .ok ()) (h2 : env.deleteDocRes = .error e) :
    deleteDocumentM env st d now =
      ({ st with blobs := st.blobs.filter (fun b => !(b == d.fileUrl)) },
       .error e) ∧
    (deleteDocumentM env st d now).1.docs = st.docs ∧
    d.fileUrl ∉ (deleteDocumentM env st d now).1.blobs := by
  have heq : deleteDocumentM env st d now =
      ({ st with blobs := st.blobs.filter (fun b => !(b == d.fileUrl)) },
       .error e) := by
    simp [deleteDocumentM, deleteDocumentBody, catchRethrow, h1, h2]
  refine ⟨heq, by rw [heq], ?_⟩
  rw [heq]
  simp [List.mem_filter]

/-- An environment whose record deletion fails. -/
def envDeleteDocFails : StoreEnv :=
  { envOK with deleteDocRes := .error "firestore unavailable" }

/-- Witness for C8: a concrete run against the verified state whose
record deletion fails after the blob deletion succeeded. -/
theorem deleteDocument_partial_failure_witness :
    deleteDocumentM envDeleteDocFails verifiedState
        (sampleDoc "c" .identity .approved) "2024-02-02" =
      ({ verifiedState with
          blobs := verifiedState.blobs.filter
            (fun b => !(b == (sampleDoc "c" .identity .approved).fileUrl)) },
       .error "firestore unavailable") ∧
    (deleteDocumentM envDeleteDocFails verifiedState
        (sampleDoc "c" .identity .approved) "2024-02-02").1.docs =
      verifiedState.docs ∧
    (sampleDoc "c" .identity .approved).fileUrl ∉
      (deleteDocumentM envDeleteDocFails verifiedState
        (sampleDoc "c" .identity .approved) "2024-02-02").1.blobs :=
  deleteDocument_partial_failure envDeleteDocFails verifiedState
    (sampleDoc "c" .identity .approved) "2024-02-02"
    "firestore unavailable" rfl rfl

/-- The results the environment assigns to the eight store call sites. -/
def envResults (env : StoreEnv) : List (Except Err Unit) :=
  [env.uploadBytesRes, env.getDownloadURLRes, env.setRecordRes,
   env.getStatusRes, env.setStatusRes, env.getDocsRes,
   env.deleteObjectRes, env.deleteDocRes]

theorem catchRethrow_id {α : Type} (r : RestaurantState × Except Err α) :
    catchRethrow r = r := by
  rcases r with ⟨st, r⟩
  cases r <;> rfl

theorem getDocumentsM_error_mem (env : StoreEnv) (st : RestaurantState)
    (e : Err) (h : (getDocumentsM env st).2 = .error e) :
    Except.error e ∈ envResults env := by
  cases hg : env.getDocsRes with
  | error e2 =>
    have : e = e2 := by
      simp [getDocumentsM, getDocumentsBody, catchRethrow, hg] at h
      exact h.symm
    subst this
    simp [envResults, hg]
  | ok u =>
    exfalso
    cases u
    simp [getDocumentsM, getDocumentsBody, catchRethrow, hg] at h

theorem getVerificationStatusM_error_mem (env : StoreEnv)
    (st : RestaurantState) (now : String) (e : Err)
    (h : (getVerificationStatusM env st now).2 = .error e) :
    Except.error e ∈ envResults env := by
  cases hg : env.getStatusRes with
  | error e2 =>
    have : e = e2 := by
      simp [getVerificationStatusM, getVerificationStatusBody, catchRethrow,
        hg] at h
      exact h.symm
    subst this
    simp [envResults, hg]
  | ok u =>
    cases u
    cases hrec : st.statusRec with
    | none =>
      cases hs : env.setStatusRes with
      | error e2 =>
        have : e = e2 := by
          simp [getVerificationStatusM, getVerificationStatusBody,
            catchRethrow, hg, hrec, hs] at h
          exact h.symm
        subst this
        simp [envResults, hs]
      | ok v =>
        exfalso
        cases v
        simp [getVerificationStatusM, getVerificationStatusBody, catchRethrow,
          hg, hrec, hs] at h
    | some s =>
      exfalso
      simp [getVerificationStatusM, getVerificationStatusBody, catchRethrow,
        hg, hrec] at h

theorem updateVerificationStatusM_error_mem (env : StoreEnv)
    (st : RestaurantState) (now : String) (e : Err)
    (h : (updateVerificationStatusM env st now).2 = .error e) :
    Except.error e ∈ envResults env := by
  cases hg : env.getDocsRes with
  | error e2 =>
    have : e = e2 := by
      simp [updateVerificationStatusM, updateVerificationStatusBody,
        getDocumentsM, getDocumentsBody, catchRethrow, hg] at h
      exact h.symm
    subst this
    simp [envResults, hg]
  | ok u =>
    cases u
    cases hs : env.setStatusRes with
    | error e2 =>
      have : e = e2 := by
        simp [updateVerificationStatusM, updateVerificationStatusBody,
          getDocumentsM, getDocumentsBody, catchRethrow, hg, hs] at h
        exact h.symm
      subst this
      simp [envResults, hs]
    | ok v =>
      exfalso
      cases v
      simp [updateVerificationStatusM, updateVerificationStatusBody,
        getDocumentsM, getDocumentsBody, catchRethrow, hg, hs] at h

theorem uploadDocumentM_error_mem (env : StoreEnv) (st : RestaurantState)
    (fileName : String) (ty : DocType) (expiryDate : Option String)
    (blobKey newId now : String) (e : Err)
    (h : (uploadDocumentM env st fileName ty expiryDate blobKey newId now).2 =
      .error e) :
    Except.error e ∈ envResults env := by
  cases hub : env.uploadBytesRes with
  | error e2 =>
    have : e = e2 := by
      simp [uploadDocumentM, uploadDocumentBody, catchRethrow, hub] at h
      exact h.symm
    subst this
    simp [envResults, hub]
  | ok u =>
    cases u
    cases hdl : env.getDownloadURLRes with
    | error e2 =>
      have : e = e2 := by
        simp [uploadDocumentM, uploadDocumentBody, catchRethrow, hub, hdl] at h
        exact h.symm
      subst this
      simp [envResults, hdl]
    | ok v =>
      cases v
      cases hsr : env.setRecordRes with
      | error e2 =>
        have : e = e2 := by
          simp [uploadDocumentM, uploadDocumentBody, catchRethrow, hub, hdl,
            hsr] at h
          exact h.symm
        subst this
        simp [envResults, hsr]
      | ok w =>
        cases w
        rcases hu : updateVerificationStatusM env
          { statusRec := st.statusRec
            docs := st.docs ++
              [mkUploadedDoc fileName ty expiryDate blobKey newId now]
            blobs := st.blobs ++ [blobKey] } now with ⟨st3, r⟩
        simp only [mkUploadedDoc] at hu
        cases r with
        | error e3 =>
          have heq : e3 = e := by
            simp [uploadDocumentM, uploadDocumentBody, catchRethrow, hub, hdl,
              hsr, hu] at h
            exact h
          have h2 : (updateVerificationStatusM env
              { statusRec := st.statusRec
                docs := st.docs ++
                  [mkUploadedDoc fileName ty expiryDate blobKey newId now]
                blobs := st.blobs ++ [blobKey] } now).2 = .error e := by
            simp only [mkUploadedDoc]
            rw [hu]
            simp [heq]
          exact updateVerificationStatusM_error_mem env _ now e h2
        | ok s =>
          exfalso
          simp [uploadDocumentM, uploadDocumentBody, catchRethrow, hub, hdl,
            hsr, hu] at h

theorem deleteDocumentM_error_mem (env : StoreEnv) (st : RestaurantState)
    (d : VerificationDocument) (now : String) (e : Err)
    (h : (deleteDocumentM env st d now).2 = .error e) :
    Except.error e ∈ envResults env := by
  cases hdo : env.deleteObjectRes with
  | error e2 =>
    have : e = e2 := by
      simp [deleteDocumentM, deleteDocumentBody, catchRethrow, hdo] at h
      exact h.symm
    subst this
    simp [envResults, hdo]
  | ok u =>
    cases u
    cases hdd : env.deleteDocRes with
    | error e2 =>
      have : e = e2 := by
        simp [deleteDocumentM, deleteDocumentBody, catchRethrow, hdo, hdd] at h
        exact h.symm
      subst this
      simp [envResults, hdd]
    | ok v =>
      cases v
      rcases hu : updateVerificationStatusM env
        { statusRec := st.statusRec
          docs := st.docs.filter (fun x => !(x.id == d.id))
          blobs := st.blobs.filter (fun b => !(b == d.fileUrl)) } now with
        ⟨st3, r⟩
      cases r with
      | error e3 =>
        have heq : e3 = e := by
          simp [deleteDocumentM, deleteDocumentBody, catchRethrow, hdo, hdd,
            hu] at h
          exact h
        have h2 : (updateVerificationStatusM env
            { statusRec := st.statusRec
              docs := st.docs.filter (fun x => !(x.id == d.id))
              blobs := st.blobs.filter (fun b => !(b == d.fileUrl)) } now).2 =
            .error e := by
          rw [hu]
          simp [heq]
        exact updateVerificationStatusM_error_mem env _ now e h2
      | ok s =>
        exfalso
        simp [deleteDocumentM, deleteDocumentBody, catchRethrow, hdo, hdd,
          hu] at h

/-- C9: every service method is its body wrapped in catch-log-rethrow,
the wrapper is the identity, so the caller receives the state and error
of the body unchanged; and any error a method raises is literally one of
the errors the underlying store calls raised, never substituted and
never swallowed. -/
theorem methods_rethrow_original_errors :
    (∀ (α : Type) (r : RestaurantState × Except Err α), catchRethrow r = r) ∧
    (∀ env st fileName ty expiryDate blobKey newId now,
      uploadDocumentM env st fileName ty expiryDate blobKey newId now =
        uploadDocumentBody env st fileName ty expiryDate blobKey newId now) ∧
    (∀ env st now, getVerificationStatusM env st now =
      getVerificationStatusBody env st now) ∧
    (∀ env st, getDocumentsM env st = getDocumentsBody env st) ∧
    (∀ env st now, updateVerificationStatusM env st now =
      updateVerificationStatusBody env st now) ∧
    (∀ env st d now, deleteDocumentM env st d now =
      deleteDocumentBody env st d now) ∧
    (∀ env st e, (getDocumentsM env st).2 = .error e →
      Except.error e ∈ envResults env) ∧
    (∀ env st now e, (getVerificationStatusM env st now).2 = .error e →
      Except.error e ∈ envResults env) ∧
    (∀ env st now e, (updateVerificationStatusM env st now).2 = .error e →
      Except.error e ∈ envResults env) ∧
    (∀ env st fileName ty expiryDate blobKey newId now e,
      (uploadDocumentM env st fileName ty expiryDate blobKey newId now).2 =
        .error e → Except.error e ∈ envResults env) ∧
    (∀ env st d now e, (deleteDocumentM env st d now).2 = .error e →
      Except.error e ∈ envResults env) :=
  ⟨fun _ => catchRethrow_id,
   fun env st fileName ty expiryDate blobKey newId now =>
     catchRethrow_id _,
   fun env st now => catchRethrow_id _,
   fun env st => catchRethrow_id _,
   fun env st now => catchRethrow_id _,
   fun env st d now => catchRethrow_id _,
   getDocumentsM_error_mem, getVerificationStatusM_error_mem,
   updateVerificationStatusM_error_mem, uploadDocumentM_error_mem,
   deleteDocumentM_error_mem⟩

/-- Witness for C9: a concrete failing run of deleteDocument whose error
is one the store raised. -/
theorem methods_rethrow_original_errors_witness :
    Except.error "firestore unavailable" ∈ envResults envDeleteDocFails :=
  methods_rethrow_original_errors.2.2.2.2.2.2.2.2.2.2 envDeleteDocFails
    verifiedState (sampleDoc "c" .identity .approved) "2024-02-02"
    "firestore unavailable" rfl

end Unichow
